import Mathlib

/-!
Verification model of the SQLiteStudio token layer
(`src/SQLiteStudio3/coreSQLiteStudio/parser/token.h`).

The repository snapshot under verification ships only the header: every
method body lives in a `token.cpp` that is not part of `src/`.  Each
definition below therefore states in its doc comment where it comes from:
the enum numeric codes, the `TOKEN_TYPE_MASK_DB_OBJECT` constant and the
`invalid = false` member initializer are taken verbatim from the header,
while method behaviour is modelled from the header's own doc comments and
the specification, as indicated per definition.
-/

/-- Token type discriminant, `Token::Type` in token.h (lines 66-105).
The constructor names are exactly the enum member names; the numeric
value attached to each member in the source is recorded by `typeCode`. -/
inductive TokenType where
| INVALID
| OTHER
| STRING
| COMMENT
| FLOAT
| INTEGER
| BIND_PARAM
| OPERATOR
| PAR_LEFT
| PAR_RIGHT
| SPACE
| BLOB
| KEYWORD
| CTX_COLUMN
| CTX_TABLE
| CTX_DATABASE
| CTX_FUNCTION
| CTX_COLLATION
| CTX_INDEX
| CTX_TRIGGER
| CTX_VIEW
| CTX_JOIN_OPTS
| CTX_TABLE_NEW
| CTX_INDEX_NEW
| CTX_VIEW_NEW
| CTX_TRIGGER_NEW
| CTX_ALIAS
| CTX_TRANSACTION
| CTX_COLUMN_NEW
| CTX_COLUMN_TYPE
| CTX_CONSTRAINT
| CTX_FK_MATCH
| CTX_PRAGMA
| CTX_ROWID_KW
| CTX_NEW_KW
| CTX_OLD_KW
| CTX_ERROR_MESSAGE
deriving DecidableEq

/-- Numeric value of each `Token::Type` enum member, copied from
token.h lines 68-104 (hexadecimal literals as in the source). -/
def typeCode : TokenType → Nat
| TokenType.INVALID => 0x0001
| TokenType.OTHER => 0x1002
| TokenType.STRING => 0x0003
| TokenType.COMMENT => 0x0004
| TokenType.FLOAT => 0x0005
| TokenType.INTEGER => 0x0006
| TokenType.BIND_PARAM => 0x0007
| TokenType.OPERATOR => 0x0008
| TokenType.PAR_LEFT => 0x0009
| TokenType.PAR_RIGHT => 0x0010
| TokenType.SPACE => 0x0011
| TokenType.BLOB => 0x0012
| TokenType.KEYWORD => 0x0013
| TokenType.CTX_COLUMN => 0x1014
| TokenType.CTX_TABLE => 0x1015
| TokenType.CTX_DATABASE => 0x1016
| TokenType.CTX_FUNCTION => 0x0017
| TokenType.CTX_COLLATION => 0x0018
| TokenType.CTX_INDEX => 0x1019
| TokenType.CTX_TRIGGER => 0x1020
| TokenType.CTX_VIEW => 0x1021
| TokenType.CTX_JOIN_OPTS => 0x0022
| TokenType.CTX_TABLE_NEW => 0x0023
| TokenType.CTX_INDEX_NEW => 0x0024
| TokenType.CTX_VIEW_NEW => 0x0025
| TokenType.CTX_TRIGGER_NEW => 0x0026
| TokenType.CTX_ALIAS => 0x0027
| TokenType.CTX_TRANSACTION => 0x0028
| TokenType.CTX_COLUMN_NEW => 0x0029
| TokenType.CTX_COLUMN_TYPE => 0x0030
| TokenType.CTX_CONSTRAINT => 0x0031
| TokenType.CTX_FK_MATCH => 0x0032
| TokenType.CTX_PRAGMA => 0x0033
| TokenType.CTX_ROWID_KW => 0x0034
| TokenType.CTX_NEW_KW => 0x0035
| TokenType.CTX_OLD_KW => 0x0036
| TokenType.CTX_ERROR_MESSAGE => 0x0037

/-- `TOKEN_TYPE_MASK_DB_OBJECT`, token.h line 17: bit mask used to test
`Token::Type` for representing any database object name. -/
def TOKEN_TYPE_MASK_DB_OBJECT : Nat := 0x1000

/-- The `Token` struct, token.h lines 49-267.  Field `end` of the source
is called `endPos` here because `end` is reserved in Lean; `value` is a
`QString` in the source, modelled as `String`; `start`/`end` are `qint64`,
modelled as `Int` (they hold `-1` for synthetic tokens). -/
structure Token where
  lemonType : Int
  type : TokenType
  value : String
  start : Int
  endPos : Int
deriving DecidableEq

/-- Modelled from the spec: body of `Token::isWhitespace` is not under
src/.  The header doc (token.h lines 187-193) states it is true for
any kind of whitespace, and that from the SQL perspective comments are
whitespaces too; so the whitespace types are `SPACE` and `COMMENT`. -/
def Token.isWhitespace (t : Token) : Bool :=
  t.type == TokenType.SPACE || t.type == TokenType.COMMENT

/-- Modelled from the spec: body of `Token::isDbObjectType` is not under
src/.  Per the mask's documentation (token.h lines 11-17) the predicate
tests the type's numeric code against `TOKEN_TYPE_MASK_DB_OBJECT`. -/
def Token.isDbObjectType (t : Token) : Bool :=
  (typeCode t.type &&& TOKEN_TYPE_MASK_DB_OBJECT) != 0

/-- Modelled from the spec: body of `Token::operator==` is not under src/.
Its header doc (token.h lines 220-228) states tokens are equal when the 4
members type, value, start, end are equal, and that `lemonType` is
ignored.  The C++ operator returns `int` (1 or 0), modelled as `Bool`. -/
def Token.eqTok (a b : Token) : Bool :=
  a.type == b.type && a.value == b.value && a.start == b.start && a.endPos == b.endPos

/-- Modelled from the spec: body of `Token::operator<` is not under src/.
Its header doc (token.h lines 230-241) states it compares only the start
and end indexes, with start taking precedence and end conclusive when the
start values are equal. -/
def Token.ltTok (a b : Token) : Bool :=
  if a.start < b.start then true
  else if a.start == b.start then decide (a.endPos < b.endPos)
  else false

/-- The `Token()` default constructor, modelled from its in-source doc
(token.h lines 107-112): empty token with type `INVALID`, lemon token id
0 and start/end positions -1. -/
def Token.defaultToken : Token :=
  { lemonType := 0, type := TokenType.INVALID, value := "", start := -1, endPos := -1 }

/-- The `TolerantToken` struct, token.h lines 292-298: a `Token` plus an
`invalid` flag whose in-class initializer `bool invalid = false;`
(line 297) is reproduced as the field's default value. -/
structure TolerantToken extends Token where
  invalid : Bool := false

/-- Construction of a `TolerantToken` from a base token without touching
the `invalid` flag: the flag keeps its in-class initializer value, exactly
as in the source, where `TolerantToken` declares no constructor of its
own. -/
def mkTolerantToken (t : Token) : TolerantToken :=
  { toToken := t }

/-- `TokenPtr` (token.h line 24) is `QSharedPointer<Token>`: a shared
reference whose `==` compares pointer identity, not token value.  The
model tags each shared token object with a numeric identity `id`;
two `TokenPtr` values denote the same object exactly when ids agree. -/
structure TokenPtr where
  id : Nat
  tok : Token
deriving DecidableEq

/-- `TokenList` (token.h line 306) is a `QList<TokenPtr>`. -/
abbrev TokenList := List TokenPtr

/-- Modelled from the spec: body of `TokenList::indexOf(TokenPtr)` is not
under src/.  Per its header doc (token.h lines 337-342) it yields the
index of the first occurrence of the token (`QList::indexOf` compares the
shared pointers, i.e. object identity), or -1 when absent — absence is
modelled as `none`. -/
def indexOfPtr (token : TokenPtr) : TokenList → Option Nat
| [] => none
| p :: ps => if p.id == token.id then some 0 else (indexOfPtr token ps).map (· + 1)

/-- Modelled from the spec: body of `TokenList::indexOf(Token::Type)` is
not under src/.  Per its header doc (token.h lines 344-349) it yields the
index of the first occurrence of a token with the given type, or -1 when
absent — absence is modelled as `none`. -/
def indexOfType (type : TokenType) : TokenList → Option Nat
| [] => none
| p :: ps => if p.tok.type == type then some 0 else (indexOfType type ps).map (· + 1)

/-- Modelled from the spec: body of `TokenList::atCursorPosition` is not
under src/.  Per its header doc (token.h lines 447-452) and the spec it
returns the (first) token whose start and end values cover the given
character position, inclusively on both ends, and the null pointer
(modelled `none`) when no token covers it.  `cursorPosition` is `quint64`
in the source, modelled as `Nat`. -/
def atCursorPosition (cursorPosition : Nat) : TokenList → Option TokenPtr
| [] => none
| p :: ps =>
  if p.tok.start ≤ (cursorPosition : Int) && (cursorPosition : Int) ≤ p.tok.endPos
  then some p
  else atCursorPosition cursorPosition ps

/-- The single-quote character, built by code point to keep the source
free of quote literals. -/
def apos : Char := Char.ofNat 39

/-- Modelled from the spec: SQL string quoting as re-applied by
detokenization — wrap in single quotes, doubling any embedded single
quote (the dequoted `value` of a string token came from stripping exactly
this form). -/
def quoteStr (s : String) : String :=
  String.singleton apos ++
    String.mk (s.data.foldr (fun c acc => if c = apos then apos :: apos :: acc else c :: acc) []) ++
    String.singleton apos

/-- Modelled from the spec: a token's original lexical surface form.  For
string-literal tokens the quoting stripped by the lexer (token.h line 70:
value is stripped of the surrounding quotes) is re-applied via
`quoteStr`; every other token's `value` holds the literal text captured
directly from the query (token.h lines 253-256). -/
def surfaceForm (t : Token) : String :=
  if t.type == TokenType.STRING then quoteStr t.value else t.value

/-- Modelled from the spec: `TokenList::detokenize` and the
`Lexer::detokenize` it delegates to (token.h lines 477-483) are not under
src/.  The spec states detokenization concatenates, in order, each
token's original lexical surface form. -/
def detokenize : TokenList → String
| [] => ""
| p :: ps => surfaceForm p.tok ++ detokenize ps

/-- Modelled from the spec: an ordered token list produced purely by
lexing a source string.  Per the spec's external-interface section the
lexer emits tokens covering the entire source with no gaps; each token's
span records the first and last character index of its chunk, and the
chunk of source text it covers is exactly the token's lexical surface
form (for string tokens the quoted form whose dequoted content is stored
in `value`). -/
inductive LexedFrom : Nat → TokenList → String → Prop where
| nil (pos : Nat) : LexedFrom pos [] ""
| cons (pos : Nat) (p : TokenPtr) (ps : TokenList) (S chunk rest : String) :
    surfaceForm p.tok = chunk →
    0 < chunk.length →
    p.tok.start = (pos : Int) →
    p.tok.endPos = (pos : Int) + (chunk.length : Int) - 1 →
    S = chunk ++ rest →
    LexedFrom (pos + chunk.length) ps rest →
    LexedFrom pos (p :: ps) S

/-- Modelled from the spec: body of `TokenList::filterWhiteSpaces` is
not under src/.  Its header doc (token.h lines 630-636) states it creates
a list letting through only tokens that are NOT a whitespace, the
whitespace test being `Token::isWhitespace`. -/
def filterWhiteSpaces : TokenList → TokenList
| [] => []
| p :: ps => if p.tok.isWhitespace then filterWhiteSpaces ps else p :: filterWhiteSpaces ps

/-- The combined matching criterion of the extended trim methods
(token.h lines 593-621): a token is dropped when it is a whitespace, or
when it has the given type and the given value (both conditions met). -/
def trimMatch (type : TokenType) (alsoTrim : String) (p : TokenPtr) : Bool :=
  p.tok.isWhitespace || (p.tok.type == type && p.tok.value == alsoTrim)

/-- Modelled from the spec: body of `TokenList::trimLeft(Token::Type,
const QString&)` is not under src/.  Its header doc (token.h lines
593-601) states it removes ALL tokens matching the criteria (whitespace,
or given type with given value) from the beginning of the list. -/
def trimLeftTV (type : TokenType) (alsoTrim : String) : TokenList → TokenList
| [] => []
| p :: ps => if trimMatch type alsoTrim p then trimLeftTV type alsoTrim ps else p :: ps

/-- Modelled from the spec: body of `TokenList::trimRight(Token::Type,
const QString&)` is not under src/.  Its header doc (token.h lines
603-611) states it removes ALL tokens matching the criteria from the end
of the list; the recursion drops a token exactly when everything after it
has been dropped and the token itself matches. -/
def trimRightTV (type : TokenType) (alsoTrim : String) : TokenList → TokenList
| [] => []
| p :: ps =>
  if (trimRightTV type alsoTrim ps).isEmpty && trimMatch type alsoTrim p
  then []
  else p :: trimRightTV type alsoTrim ps

/-- Modelled from the spec: body of `TokenList::trim(Token::Type,
const QString&)` is not under src/.  Its header doc (token.h lines
613-621) states it trims both the beginning and the end, i.e. it combines
the left and right extended trims. -/
def trimTV (type : TokenType) (alsoTrim : String) (l : TokenList) : TokenList :=
  trimRightTV type alsoTrim (trimLeftTV type alsoTrim l)

/-- Splicing used by the range-replace methods: remove `length` tokens at
`startIdx`, put `newTokens` in their place (token.h lines 485-491). -/
def replaceRange (startIdx length : Nat) (newTokens l : TokenList) : TokenList :=
  l.take startIdx ++ newTokens ++ l.drop (startIdx + length)

/-- Modelled from the spec: body of `TokenList::replace(TokenPtr,
TokenPtr, const TokenList&)` is not under src/.  Its header doc (token.h
lines 515-525) states both endpoints are resolved by identity, the
inclusive range between them is replaced and the number of replaced
tokens is returned, and that the method does nothing and returns 0 when
either endpoint is not found; per the spec the same silent no-op applies
when `startToken` occurs after `endToken`.  The result pairs the new list
with the returned count. -/
def replaceTokens (startToken endToken : TokenPtr) (newTokens : TokenList) (l : TokenList) :
    TokenList × Nat :=
  match indexOfPtr startToken l, indexOfPtr endToken l with
  | some s, some e =>
    if e < s then (l, 0)
    else (replaceRange s (e - s + 1) newTokens l, e - s + 1)
  | _, _ => (l, 0)

/-- Modelled from the spec: body of `TokenList::remove(TokenPtr,
TokenPtr)` is not under src/.  Its header doc (token.h lines 555-563)
states it removes the inclusive identity-resolved range and returns
whether both tokens were found and removed, doing nothing and returning
false when `startToken` is placed after `endToken` (or either is
missing). -/
def removeRangeTokens (startToken endToken : TokenPtr) (l : TokenList) : TokenList × Bool :=
  match indexOfPtr startToken l, indexOfPtr endToken l with
  | some s, some e =>
    if e < s then (l, false)
    else (l.take s ++ l.drop (e + 1), true)
  | _, _ => (l, false)

/-- Modelled from the spec: body of `TokenList::remove(Token::Type)` is
not under src/.  Its header doc (token.h lines 565-570) states it removes
the first token of the given type and returns whether a token was located
and removed. -/
def removeType (type : TokenType) (l : TokenList) : TokenList × Bool :=
  match indexOfType type l with
  | some i => (l.take i ++ l.drop (i + 1), true)
  | none => (l, false)

/-! ### Concrete example tokens used by counterexamples and witnesses -/

/-- A SPACE token (whitespace), object identity 1. -/
def spTok : TokenPtr := ⟨1, ⟨0, TokenType.SPACE, " ", 0, 0⟩⟩

/-- A KEYWORD token with value SELECT, object identity 2. -/
def kwTok : TokenPtr := ⟨2, ⟨0, TokenType.KEYWORD, "SELECT", 1, 6⟩⟩

/-- A second SPACE token, object identity 3. -/
def spTok2 : TokenPtr := ⟨3, ⟨0, TokenType.SPACE, " ", 7, 7⟩⟩

/-- A comma OPERATOR token, object identity 4. -/
def commaTok : TokenPtr := ⟨4, ⟨0, TokenType.OPERATOR, ",", 0, 0⟩⟩

/-- A second comma OPERATOR token, object identity 5. -/
def commaTok2 : TokenPtr := ⟨5, ⟨0, TokenType.OPERATOR, ",", 1, 1⟩⟩

/-! ### Theorems for the claims -/

/-- Claim C10: a freshly constructed TolerantToken has its `invalid` flag
set to false — the in-class initializer `bool invalid = false;` applies
whatever base token the object is built from. -/
theorem tolerantToken_invalid_default_false (t : Token) :
    (mkTolerantToken t).invalid = false := rfl

/-- The 0x1000 classification-bit test on a type's numeric code is true
exactly for the db-object types enumerated in the header. -/
lemma dbObjectBit_iff (ty : TokenType) :
    ((typeCode ty &&& TOKEN_TYPE_MASK_DB_OBJECT) != 0) = true ↔
      (ty = TokenType.OTHER ∨ ty = TokenType.CTX_COLUMN ∨
       ty = TokenType.CTX_TABLE ∨ ty = TokenType.CTX_DATABASE ∨
       ty = TokenType.CTX_INDEX ∨ ty = TokenType.CTX_TRIGGER ∨
       ty = TokenType.CTX_VIEW) := by
  cases ty <;> decide

/-- Claim C5: `isDbObjectType` is true exactly for the generic name type
OTHER and the existing-object context types CTX_COLUMN, CTX_TABLE,
CTX_DATABASE, CTX_INDEX, CTX_TRIGGER, CTX_VIEW, and false for every other
type; the classification is derived from the 0x1000 classification bit of
the type's numeric code. -/
theorem isDbObjectType_characterization (t : Token) :
    t.isDbObjectType = true ↔
      (t.type = TokenType.OTHER ∨ t.type = TokenType.CTX_COLUMN ∨
       t.type = TokenType.CTX_TABLE ∨ t.type = TokenType.CTX_DATABASE ∨
       t.type = TokenType.CTX_INDEX ∨ t.type = TokenType.CTX_TRIGGER ∨
       t.type = TokenType.CTX_VIEW) :=
  dbObjectBit_iff t.type

/-- Claim C6: two tokens compare equal iff their type, value, start and
end members are all equal; the grammar-terminal id `lemonType` plays no
role, so changing it on either side never changes the comparison. -/
theorem token_eq_characterization (a b : Token) :
    (Token.eqTok a b = true ↔
      (a.type = b.type ∧ a.value = b.value ∧ a.start = b.start ∧ a.endPos = b.endPos)) ∧
    (∀ l1 l2 : Int,
      Token.eqTok { a with lemonType := l1 } { b with lemonType := l2 } = Token.eqTok a b) := by
  constructor
  · simp [Token.eqTok, Bool.and_eq_true, beq_iff_eq, and_assoc]
  · intro l1 l2
    rfl

/-- Claim C7: `a < b` on tokens holds iff `a.start < b.start`, or
`a.start = b.start` and `a.end < b.end` — the lexicographic order on
(start, end) with start dominant. -/
theorem token_lt_characterization (a b : Token) :
    Token.ltTok a b = true ↔
      (a.start < b.start ∨ (a.start = b.start ∧ a.endPos < b.endPos)) := by
  unfold Token.ltTok
  split
  next h => simp [h]
  next h =>
    split
    next h2 =>
      rw [beq_iff_eq] at h2
      simp [h, h2]
    next h2 =>
      rw [beq_iff_eq] at h2
      simp [h, h2]

/-- Claim C2 counterexample: on the singleton list holding one SPACE
token the claim predicts that `filterWhiteSpaces` returns the whitespace
subsequence, i.e. that single SPACE token; the code instead lets through
only tokens that are NOT whitespace and returns the empty list. -/
theorem filterWhiteSpaces_claim_counterexample :
    Token.isWhitespace spTok.tok = true ∧
    filterWhiteSpaces [spTok] = [] ∧
    filterWhiteSpaces [spTok] ≠ List.filter (fun p => p.tok.isWhitespace) [spTok] := by
  decide

/-- Claim C2 (amended): `filterWhiteSpaces()` returns the ordered
subsequence consisting of exactly those tokens for which `isWhitespace()`
is false. -/
theorem filterWhiteSpaces_keeps_nonwhitespace (l : TokenList) :
    filterWhiteSpaces l = l.filter (fun p => !(p.tok.isWhitespace)) := by
  induction l with
  | nil => rfl
  | cons p ps ih =>
    simp only [filterWhiteSpaces, List.filter_cons]
    cases h : p.tok.isWhitespace <;> simp [h, ih]

/-- Reversing a list does not change emptiness. -/
lemma isEmpty_rev (xs : TokenList) : xs.reverse.isEmpty = xs.isEmpty := by
  cases xs <;> simp

/-- The extended left trim is exactly `dropWhile` with the combined
matching criterion. -/
lemma trimLeftTV_eq_dropWhile (type : TokenType) (alsoTrim : String) :
    ∀ l : TokenList, trimLeftTV type alsoTrim l = l.dropWhile (trimMatch type alsoTrim)
| [] => rfl
| p :: ps => by
  rw [trimLeftTV, List.dropWhile_cons]
  cases h : trimMatch type alsoTrim p <;>
    simp [h, trimLeftTV_eq_dropWhile type alsoTrim ps]

/-- The extended right trim is `dropWhile` with the combined matching
criterion applied to the reversed list. -/
lemma trimRightTV_eq_dropWhile (type : TokenType) (alsoTrim : String) :
    ∀ l : TokenList,
      trimRightTV type alsoTrim l = (l.reverse.dropWhile (trimMatch type alsoTrim)).reverse
| [] => rfl
| p :: ps => by
  rw [trimRightTV, trimRightTV_eq_dropWhile type alsoTrim ps]
  rw [List.reverse_cons, List.dropWhile_append]
  cases h : (ps.reverse.dropWhile (trimMatch type alsoTrim)).isEmpty
  · simp [h, isEmpty_rev]
  · have hx : ps.reverse.dropWhile (trimMatch type alsoTrim) = [] := by
      simpa using h
    cases h2 : trimMatch type alsoTrim p <;>
      simp [h, hx, h2, List.dropWhile_cons, List.dropWhile]

/-- Claim C3 (amended): after the whitespace consumption the extended
trims keep dropping every token from the respective end that is a
whitespace or matches both the given type and the given value — possibly
several, not at most one — until the first token matching neither
condition: each extended trim equals `dropWhile` with the combined
criterion from the respective end. -/
theorem trim_type_value_drops_all_matching (type : TokenType) (alsoTrim : String)
    (l : TokenList) :
    trimLeftTV type alsoTrim l = l.dropWhile (trimMatch type alsoTrim) ∧
    trimRightTV type alsoTrim l = (l.reverse.dropWhile (trimMatch type alsoTrim)).reverse ∧
    trimTV type alsoTrim l =
      ((l.dropWhile (trimMatch type alsoTrim)).reverse.dropWhile
        (trimMatch type alsoTrim)).reverse := by
  refine ⟨trimLeftTV_eq_dropWhile type alsoTrim l, trimRightTV_eq_dropWhile type alsoTrim l, ?_⟩
  rw [trimTV, trimRightTV_eq_dropWhile, trimLeftTV_eq_dropWhile]

/-- Claim C3 counterexample: on a list of two adjacent comma OPERATOR
tokens, `trimLeft(OPERATOR, ",")` drops both commas and yields the empty
list, while the claim (drop whitespace, then at most one matching token)
predicts that the second comma remains. -/
theorem trimLeft_type_value_counterexample :
    trimLeftTV TokenType.OPERATOR "," [commaTok, commaTok2] = [] ∧
    trimLeftTV TokenType.OPERATOR "," [commaTok, commaTok2] ≠ [commaTok2] := by
  decide

/-- When no token of the given type is present, the first-occurrence
index lookup by type yields nothing. -/
lemma indexOfType_eq_none (type : TokenType) :
    ∀ l : TokenList, (∀ q ∈ l, q.tok.type ≠ type) → indexOfType type l = none
| [], _ => rfl
| p :: ps, h => by
  have hp : p.tok.type ≠ type := h p (List.mem_cons_self p ps)
  have hps := indexOfType_eq_none type ps (fun q hq => h q (List.mem_cons_of_mem p hq))
  rw [indexOfType]
  simp [hp, hps]

/-- The first-occurrence index lookup by type finds the first token of
that type, at the index given by the length of the prefix before it. -/
lemma indexOfType_append (type : TokenType) (p : TokenPtr) (l2 : TokenList) :
    ∀ l1 : TokenList, (∀ q ∈ l1, q.tok.type ≠ type) → p.tok.type = type →
      indexOfType type (l1 ++ p :: l2) = some l1.length
| [], _, hp => by simp [indexOfType, hp]
| q :: qs, h, hp => by
  have hq : q.tok.type ≠ type := h q (List.mem_cons_self q qs)
  have hqs := indexOfType_append type p l2 qs (fun r hr => h r (List.mem_cons_of_mem q hr)) hp
  rw [List.cons_append, indexOfType]
  simp [hq, hqs]

/-- Claim C9: `remove(type)` removes only the first token whose type is
the given one — every later token of that type remains — returning true;
when no token of the type is present the list is unchanged and the result
is false. -/
theorem remove_type_first_only (type : TokenType) (l l1 l2 : TokenList) (p : TokenPtr) :
    ((∀ q ∈ l, q.tok.type ≠ type) → removeType type l = (l, false)) ∧
    ((∀ q ∈ l1, q.tok.type ≠ type) → p.tok.type = type →
      removeType type (l1 ++ p :: l2) = (l1 ++ l2, true)) := by
  constructor
  · intro h
    rw [removeType, indexOfType_eq_none type l h]
  · intro h hp
    rw [removeType, indexOfType_append type p l2 l1 h hp]
    have h1 : (l1 ++ p :: l2).take l1.length = l1 := List.take_left l1 (p :: l2)
    have h2 : (l1 ++ p :: l2).drop (l1.length + 1) = l2 := by
      have e : l1 ++ p :: l2 = (l1 ++ [p]) ++ l2 := by simp
      have hl : l1.length + 1 = (l1 ++ [p]).length := by simp
      rw [e, hl]
      exact List.drop_left (l1 ++ [p]) l2
    simp [h1, h2]

/-- Claim C9 witness: on `[SPACE, KEYWORD(SELECT), SPACE]`, removing by
type SPACE removes only the first space and returns true, and removing by
type SPACE from a list without spaces changes nothing and returns
false. -/
theorem remove_type_first_only_witness :
    removeType TokenType.SPACE [spTok, kwTok, spTok2] = ([kwTok, spTok2], true) ∧
    removeType TokenType.SPACE [kwTok] = ([kwTok], false) := by
  constructor
  · exact (remove_type_first_only TokenType.SPACE [] [] [kwTok, spTok2] spTok).2
      (by intro q hq; cases hq) rfl
  · exact (remove_type_first_only TokenType.SPACE [kwTok] [] [] kwTok).1 (by decide)

/-- Claim C4: when either endpoint token is not found in the list by
identity, or the start token occurs at a later index than the end token,
the identity-ranged `replace` leaves the list unchanged and returns 0 and
the identity-ranged `remove` leaves the list unchanged and returns
false. -/
theorem replace_remove_noop_on_missing_or_out_of_order
    (l : TokenList) (a b : TokenPtr) (newTokens : TokenList)
    (h : indexOfPtr a l = none ∨ indexOfPtr b l = none ∨
      ∃ s e, indexOfPtr a l = some s ∧ indexOfPtr b l = some e ∧ e < s) :
    replaceTokens a b newTokens l = (l, 0) ∧ removeRangeTokens a b l = (l, false) := by
  rcases h with ha | hb | ⟨s, e, ha, hb, hlt⟩
  · exact ⟨by simp [replaceTokens, ha], by simp [removeRangeTokens, ha]⟩
  · cases hA : indexOfPtr a l with
    | none => exact ⟨by simp [replaceTokens, hA], by simp [removeRangeTokens, hA]⟩
    | some s => exact ⟨by simp [replaceTokens, hA, hb], by simp [removeRangeTokens, hA, hb]⟩
  · exact ⟨by simp [replaceTokens, ha, hb, hlt], by simp [removeRangeTokens, ha, hb, hlt]⟩

/-- Claim C4 witness: in the two-token list `[spTok, kwTok]` the
endpoints given in reversed order (start token at index 1, end token at
index 0) make both the ranged replace and the ranged remove silent
no-ops. -/
theorem replace_remove_noop_witness :
    replaceTokens kwTok spTok [commaTok] [spTok, kwTok] = ([spTok, kwTok], 0) ∧
    removeRangeTokens kwTok spTok [spTok, kwTok] = ([spTok, kwTok], false) :=
  replace_remove_noop_on_missing_or_out_of_order [spTok, kwTok] kwTok spTok [commaTok]
    (Or.inr (Or.inr ⟨1, 0, by decide, by decide, by decide⟩))

/-- A token with span 0..2 used by the cursor-lookup witness. -/
def curTokA : TokenPtr := ⟨6, ⟨0, TokenType.OTHER, "abc", 0, 2⟩⟩

/-- A token with span 3..5 used by the cursor-lookup witness. -/
def curTokB : TokenPtr := ⟨7, ⟨0, TokenType.OTHER, "xyz", 3, 5⟩⟩

/-- Claim C8: `atCursorPosition(pos)` returns a token of the list whose
`[start, end]` span contains `pos` inclusively on both ends, and returns
the null sentinel exactly when `pos` lies inside no token's span. -/
theorem atCursorPosition_spec (l : TokenList) (pos : Nat) :
    (∀ p, atCursorPosition pos l = some p →
      p ∈ l ∧ p.tok.start ≤ (pos : Int) ∧ (pos : Int) ≤ p.tok.endPos) ∧
    (atCursorPosition pos l = none ↔
      ∀ p ∈ l, ¬(p.tok.start ≤ (pos : Int) ∧ (pos : Int) ≤ p.tok.endPos)) := by
  induction l with
  | nil =>
    constructor
    · intro p h
      cases h
    · simp [atCursorPosition]
  | cons q qs ih =>
    by_cases hc : q.tok.start ≤ (pos : Int) ∧ (pos : Int) ≤ q.tok.endPos
    · have hb : (decide (q.tok.start ≤ (pos : Int)) && decide ((pos : Int) ≤ q.tok.endPos)) = true := by
        simp [hc.1, hc.2]
      constructor
      · intro p h
        rw [atCursorPosition, if_pos hb] at h
        cases h
        exact ⟨List.mem_cons_self q qs, hc.1, hc.2⟩
      · rw [atCursorPosition, if_pos hb]
        constructor
        · intro h
          cases h
        · intro h
          exact absurd hc (h q (List.mem_cons_self q qs))
    · have hb : (decide (q.tok.start ≤ (pos : Int)) && decide ((pos : Int) ≤ q.tok.endPos)) = false := by
        rcases Decidable.not_and_iff_or_not.mp hc with h1 | h1 <;> simp [h1]
      constructor
      · intro p h
        rw [atCursorPosition, if_neg (by simp [hb])] at h
        obtain ⟨hm, hs, he⟩ := ih.1 p h
        exact ⟨List.mem_cons_of_mem q hm, hs, he⟩
      · rw [atCursorPosition, if_neg (by simp [hb]), ih.2]
        constructor
        · intro h p hp
          rcases List.mem_cons.mp hp with rfl | hmem
          · exact hc
          · exact h p hmem
        · intro h p hp
          exact h p (List.mem_cons_of_mem q hp)

/-- Claim C8 witness: for adjacent tokens with spans `[0,2]` and `[3,5]`,
position 2 yields the first token, position 3 the second, and position 9
(covered by no span) yields the null sentinel; the found token is a list
member whose inclusive span contains the position. -/
theorem atCursorPosition_spec_witness :
    atCursorPosition 2 [curTokA, curTokB] = some curTokA ∧
    atCursorPosition 3 [curTokA, curTokB] = some curTokB ∧
    atCursorPosition 9 [curTokA, curTokB] = none ∧
    (curTokA ∈ [curTokA, curTokB] ∧
      curTokA.tok.start ≤ ((2 : Nat) : Int) ∧ ((2 : Nat) : Int) ≤ curTokA.tok.endPos) ∧
    (∀ p ∈ [curTokA, curTokB],
      ¬(p.tok.start ≤ ((9 : Nat) : Int) ∧ ((9 : Nat) : Int) ≤ p.tok.endPos)) :=
  ⟨by decide, by decide, by decide,
   (atCursorPosition_spec [curTokA, curTokB] 2).1 curTokA (by decide),
   (atCursorPosition_spec [curTokA, curTokB] 9).2.mp (by decide)⟩

/-- Detokenization of a lexed list reproduces the source, at any start
position. -/
lemma detokenize_lexedFrom :
    ∀ (pos : Nat) (ts : TokenList) (S : String), LexedFrom pos ts S → detokenize ts = S := by
  intro pos ts S h
  induction h with
  | nil _ => rfl
  | cons pos2 p ps S2 chunk rest hsurf hlen hstart hend hS hrec ih =>
    rw [detokenize, ih, hsurf, hS]

/-- Claim C1: for every TokenList produced purely by lexing a source
string S, with no mutation applied afterwards, `detokenize()` returns
exactly S — string-literal tokens have the stripped quoting re-applied
via their surface form. -/
theorem detokenize_roundtrip (ts : TokenList) (S : String) (h : LexedFrom 0 ts S) :
    detokenize ts = S :=
  detokenize_lexedFrom 0 ts S h

/-- A name token covering character 0 of the witness source. -/
def lexTokA : TokenPtr := ⟨8, ⟨0, TokenType.OTHER, "a", 0, 0⟩⟩

/-- A whitespace token covering character 1 of the witness source. -/
def lexTokSp : TokenPtr := ⟨9, ⟨0, TokenType.SPACE, " ", 1, 1⟩⟩

/-- A string token covering characters 2..4 of the witness source: its
`value` holds the dequoted content `b` while the span covers the quoted
source form. -/
def lexTokStr : TokenPtr := ⟨10, ⟨0, TokenType.STRING, "b", 2, 4⟩⟩

/-- The witness source string: a name, a space and a quoted string
literal. -/
def lexSource : String := "a " ++ quoteStr "b"

/-- Claim C1 witness: the three-token list lexed from the concrete source
(a name, a space, a quoted string literal) detokenizes back to exactly
that source. -/
theorem detokenize_roundtrip_witness :
    LexedFrom 0 [lexTokA, lexTokSp, lexTokStr] lexSource ∧
    detokenize [lexTokA, lexTokSp, lexTokStr] = lexSource := by
  have h3 : LexedFrom 2 [lexTokStr] (quoteStr "b") :=
    LexedFrom.cons 2 lexTokStr [] (quoteStr "b") (quoteStr "b") ""
      (by decide) (by decide) (by decide) (by decide) (by decide)
      (LexedFrom.nil (2 + (quoteStr "b").length))
  have h2 : LexedFrom 1 [lexTokSp, lexTokStr] (" " ++ quoteStr "b") :=
    LexedFrom.cons 1 lexTokSp [lexTokStr] (" " ++ quoteStr "b") " " (quoteStr "b")
      (by decide) (by decide) (by decide) (by decide) rfl h3
  have h1 : LexedFrom 0 [lexTokA, lexTokSp, lexTokStr] lexSource :=
    LexedFrom.cons 0 lexTokA [lexTokSp, lexTokStr] lexSource "a" (" " ++ quoteStr "b")
      (by decide) (by decide) (by decide) (by decide) (by decide) h2
  exact ⟨h1, detokenize_roundtrip [lexTokA, lexTokSp, lexTokStr] lexSource h1⟩
